import Mathlib

/-!
Shallow embedding of the trigger-deduplication and reconciliation core of
qontract-reconcile: the modules `reconcile/saas_file_owners.py`,
`reconcile/openshift_saas_deploy_trigger_base.py` and `reconcile/ocm_groups.py`.
Python dictionaries appearing as records are embedded as Lean structures,
Python sets as `Finset`, Python lists as `List`, and the nondeterministic
timestamp input (`datetime.utcnow`) as an explicit parameter.  String
operations are embedded as structurally recursive functions over the
character list of the string, so that every definition evaluates inside
the kernel.
-/

namespace PyStr

/-- Embedding of the Python call `u.replace('@', '')` as it appears in
`check_if_lgtm`: with a one-character pattern and an empty replacement,
`str.replace` removes every occurrence of that character. -/
def removeChar (c : Char) (u : String) : String :=
  ⟨u.data.filter (fun d => d ≠ c)⟩

/-- Helper for `split`: split a character list at every occurrence of
the separator, keeping empty pieces, as Python `str.split(sep)` does. -/
def splitChars (sep : Char) : List Char → List (List Char)
  | [] => [[]]
  | c :: rest =>
    if c = sep then [] :: splitChars sep rest
    else
      match splitChars sep rest with
      | [] => [[c]]
      | h :: t => (c :: h) :: t

/-- Embedding of Python `s.split(sep)` for a one-character separator. -/
def split (sep : Char) (s : String) : List String :=
  (splitChars sep s.data).map (fun l => ⟨l⟩)

/-- Embedding of Python `s.lower()`. -/
def lower (s : String) : String :=
  ⟨s.data.map Char.toLower⟩

/-- Embedding of the Python slice `s[:n]` (by code point, as in Python). -/
def take (s : String) (n : Nat) : String :=
  ⟨s.data.take n⟩

/-- Embedding of Python `s.endswith(suffix)`. -/
def endsWith (s suffix : String) : Bool :=
  suffix.data.isSuffixOf s.data

/-- Stripping one leading `@`, used only by the specification-side
approval machine (the spec claims approver identifiers are normalized
by removing a leading `@`). -/
def dropLeadingAt (u : String) : String :=
  match u.data with
  | '@' :: rest => ⟨rest⟩
  | _ => u

end PyStr

namespace SaasFileOwners

/-- The `saas_file_definitions` sub-record built in `collect_state`. -/
structure SaasFileDefinitions where
  managed_resource_types : List String
  image_patterns : List String
  use_channel_in_image_tag : Bool
deriving DecidableEq, Repr

/-- One entry of the state list built in `collect_state`.  The field
`disable` is `Option Bool` because `valid_diff` pops the key `disable`
with a default: the key may be absent (`none`, as in the output of
`collect_state`) or present. -/
structure Entry where
  saas_file_path : String
  saas_file_name : String
  resource_template_name : String
  cluster : String
  «namespace» : String
  environment : String
  url : String
  ref : String
  parameters : List (String × String)
  saas_file_definitions : SaasFileDefinitions
  delete : Option Bool
  disable : Option Bool := none
deriving DecidableEq, Repr

/-- `saas_file_definitions` after `valid_diff` popped
`use_channel_in_image_tag`. -/
structure StrippedDefinitions where
  managed_resource_types : List String
  image_patterns : List String
deriving DecidableEq, Repr

/-- An entry after `valid_diff` popped `ref`, `parameters`, `disable`
and `saas_file_definitions.use_channel_in_image_tag`. -/
structure StrippedEntry where
  saas_file_path : String
  saas_file_name : String
  resource_template_name : String
  cluster : String
  «namespace» : String
  environment : String
  url : String
  saas_file_definitions : StrippedDefinitions
  delete : Option Bool
deriving DecidableEq, Repr

/-- The mutation performed by the loops of `valid_diff` on one (copied)
entry: `pop` of the keys `ref`, `parameters`, `disable` and of
`use_channel_in_image_tag` inside `saas_file_definitions`. -/
def stripEntry (e : Entry) : StrippedEntry :=
  { saas_file_path := e.saas_file_path
    saas_file_name := e.saas_file_name
    resource_template_name := e.resource_template_name
    cluster := e.cluster
    «namespace» := e.«namespace»
    environment := e.environment
    url := e.url
    saas_file_definitions :=
      { managed_resource_types := e.saas_file_definitions.managed_resource_types
        image_patterns := e.saas_file_definitions.image_patterns }
    delete := e.delete }

/-- `valid_diff(current_state, desired_state)`: deep-copies both lists,
pops the trivial fields from every entry of both copies, and compares
the copies for equality. -/
def valid_diff (current_state desired_state : List Entry) : Bool :=
  decide (current_state.map stripEntry = desired_state.map stripEntry)

/-- The call `valid_diff(current_state, desired_state)` with the values
of the two argument bindings after the call made explicit: the function
mutates `copy.deepcopy` copies of its arguments only, so the caller
observes the original lists unchanged.  The first component is the
returned boolean, the remaining two are the post-call values of
`current_state` and `desired_state` as the caller sees them. -/
def valid_diffExec (current_state desired_state : List Entry) :
    Bool × List Entry × List Entry :=
  let current_state_copy := current_state.map stripEntry
  let desired_state_copy := desired_state.map stripEntry
  (decide (current_state_copy = desired_state_copy), current_state, desired_state)

/-- The diff computation of `run`:
`diffs = [s for s in desired_state if s not in current_state]`. -/
def computeDiffs (current_state desired_state : List Entry) : List Entry :=
  desired_state.filter (fun s => decide (s ∉ current_state))

/-- `collect_compare_diffs(current_state, desired_state, changed_paths)`:
the set of comparison URLs added by the two nested loops.  A desired
entry whose defining file path matches no changed path is skipped; for
the rest, every current entry agreeing on the five identity fields but
with a different `ref` contributes `{url}/compare/{c.ref}...{d.ref}`. -/
def collect_compare_diffs (current_state desired_state : List Entry)
    (changed_paths : List String) : Finset String :=
  (desired_state.flatMap (fun d =>
    if (changed_paths.filter (fun c => PyStr.endsWith c d.saas_file_path)).isEmpty then
      []
    else
      current_state.filterMap (fun c =>
        if d.saas_file_name = c.saas_file_name ∧
           d.resource_template_name = c.resource_template_name ∧
           d.environment = c.environment ∧
           d.cluster = c.cluster ∧
           d.«namespace» = c.«namespace» ∧
           d.ref ≠ c.ref then
          some (d.url ++ "/compare/" ++ c.ref ++ "..." ++ d.ref)
        else
          none))).toFinset

/-- A merge-request comment as consumed by `check_if_lgtm`. -/
structure Comment where
  username : String
  body : String
  created_at : Nat
deriving DecidableEq, Repr

/-- Stable insertion into a list sorted ascending by `created_at`:
the new comment is placed before the first comment whose key is not
strictly smaller, so comments with equal keys keep their original
relative order, as Python `sorted` guarantees. -/
def insertByCreated (c : Comment) : List Comment → List Comment
  | [] => [c]
  | d :: rest =>
    if d.created_at < c.created_at then d :: insertByCreated c rest
    else c :: d :: rest

/-- Embedding of `sorted(comments, key=lambda k: k['created_at'])`:
a stable sort ascending by `created_at`. -/
def sortedByCreated : List Comment → List Comment
  | [] => []
  | c :: rest => insertByCreated c (sortedByCreated rest)

/-- The body of the inner `for line in comment['body'].split('\n')`
loop of `check_if_lgtm`, acting on the mutable state
`(approved, hold, lgtm_comment)`. -/
def processLine (st : Bool × Bool × Bool) (line : String) : Bool × Bool × Bool :=
  let approved := st.1
  let hold := st.2.1
  let lgtm_comment := st.2.2
  let (lgtm_comment, approved) :=
    if line = "/lgtm" then (true, true) else (lgtm_comment, approved)
  let (lgtm_comment, approved) :=
    if line = "/lgtm cancel" then (false, false) else (lgtm_comment, approved)
  let (hold, approved) :=
    if line = "/hold" then (true, false) else (hold, approved)
  let (hold, approved) :=
    if line = "/hold cancel" then (false, if lgtm_comment then true else approved)
    else (hold, approved)
  (approved, hold, lgtm_comment)

/-- `check_if_lgtm(owners, comments)`: returns `(approved, hold)`.
Empty owner list short-circuits to `(false, false)`; owners are
normalized with `u.replace('@', '')`; comments are visited ascending by
creation time; comments by non-owners are skipped; each line of an
owner comment is fed through the command grammar. -/
def check_if_lgtm (owners : List String) (comments : List Comment) : Bool × Bool :=
  if owners = [] then (false, false)
  else
    let sorted_comments := sortedByCreated comments
    let owners := owners.map (fun u => PyStr.removeChar '@' u)
    let st := sorted_comments.foldl
      (fun st comment =>
        if comment.username ∈ owners then
          (PyStr.split '\n' comment.body).foldl processLine st
        else st)
      (false, false, false)
    (st.1, st.2.1)

/-- The approval state machine as the specification describes it: two
persistent flags `lgtmSeen` and `hold` plus the derived `approved`. -/
structure ApprovalState where
  lgtmSeen : Bool
  approved : Bool
  hold : Bool
deriving DecidableEq, Repr

/-- One step of the specification-side command grammar on a single line. -/
def applyCommand (st : ApprovalState) (line : String) : ApprovalState :=
  if line = "/lgtm" then { st with lgtmSeen := true, approved := true }
  else if line = "/lgtm cancel" then { st with lgtmSeen := false, approved := false }
  else if line = "/hold" then { st with hold := true, approved := false }
  else if line = "/hold cancel" then
    { st with hold := false, approved := if st.lgtmSeen then true else st.approved }
  else st

/-- The approval evaluator exactly as the claim states it, including its
normalization of approver identifiers by stripping only a leading `@`.
This is the specification-side definition used to compare against
`check_if_lgtm`. -/
def evaluateApprovalClaimed (approvers : List String) (comments : List Comment) :
    Bool × Bool :=
  if approvers = [] then (false, false)
  else
    let normalized := approvers.map PyStr.dropLeadingAt
    let final := (sortedByCreated comments).foldl
      (fun st comment =>
        if comment.username ∈ normalized then
          (PyStr.split '\n' comment.body).foldl applyCommand st
        else st)
      ⟨false, false, false⟩
    (final.approved, final.hold)

/-- The approval evaluator of the amended claim: identical to the
claimed state machine except that approver identifiers are normalized
by removing every `@` character, as `str.replace('@', '')` does. -/
def evaluateApprovalAmended (approvers : List String) (comments : List Comment) :
    Bool × Bool :=
  if approvers = [] then (false, false)
  else
    let normalized := approvers.map (fun u => PyStr.removeChar '@' u)
    let final := (sortedByCreated comments).foldl
      (fun st comment =>
        if comment.username ∈ normalized then
          (PyStr.split '\n' comment.body).foldl applyCommand st
        else st)
      ⟨false, false, false⟩
    (final.approved, final.hold)

/-- A concrete current-state entry used by concrete instances. -/
def exampleCurrent : Entry :=
  { saas_file_path := "data/services/example/saas.yaml"
    saas_file_name := "example"
    resource_template_name := "tmpl"
    cluster := "cl1"
    «namespace» := "ns1"
    environment := "prod"
    url := "https://git/example"
    ref := "abc"
    parameters := []
    saas_file_definitions := ⟨["Deployment"], ["quay.io/app"], false⟩
    delete := none }

/-- The same target with only the revision pointer moved. -/
def exampleDesired : Entry := { exampleCurrent with ref := "def" }

end SaasFileOwners

namespace TriggerBase

/-- The provider discriminator strings of
`reconcile.utils.saasherder.Providers`.
Modelled from the spec: the `Providers` constants live in
`reconcile/utils/saasherder.py`, which is not under src/; the spec
describes the two pipeline-provider kinds (job queue and cluster
apply), discriminated by a wire-level string. -/
def ProvidersJENKINS : String := "jenkins"

/-- See `ProvidersJENKINS`. -/
def ProvidersTEKTON : String := "tekton"

/-- Modelled from the spec: `UNIQUE_SAAS_FILE_ENV_COMBO_LEN` is defined
in `reconcile/utils/saasherder.py`, which is not under src/; the spec
says names are truncated to a fixed prefix length, and the source
comment says the 63-character limit leaves 50 once the 12-character
timestamp and the separating hyphen are reserved. -/
def UNIQUE_SAAS_FILE_ENV_COMBO_LEN : Nat := 50

/-- The `pipelines_provider` sub-record of a trigger spec, flattened:
`provider`, `instance.name`, `namespace.name`, `namespace.cluster.name`
and `namespace.cluster.consoleUrl`. -/
structure PipelinesProvider where
  provider : String
  instance_name : String
  namespace_name : String
  cluster_name : String
  cluster_console_url : String
deriving DecidableEq, Repr

/-- A trigger spec as created by saasherder and consumed by `trigger`. -/
structure TriggerSpec where
  saas_file_name : String
  env_name : String
  pipelines_provider : PipelinesProvider
deriving DecidableEq, Repr

/-- The app-interface settings fields read by this module. -/
structure Settings where
  saasDeployJobTemplate : String
deriving DecidableEq, Repr

/-- Modelled from the spec: `get_openshift_saas_deploy_job_name` lives
in `reconcile/jenkins_job_builder.py`, which is not under src/; the
spec says the job-queue trigger identity is a deterministic job name
derived from the deployment-unit and environment names. -/
def get_openshift_saas_deploy_job_name (saas_file_name env_name : String)
    (_settings : Settings) : String :=
  saas_file_name ++ "-" ++ env_name ++ "-saas-deploy"

/-- `_register_trigger(name, already_triggered)`: under the module
lock, test membership and insert if absent; return whether the
insertion occurred, together with the registry after the call. -/
def _register_trigger (name : String) (already_triggered : Finset String) :
    Bool × Finset String :=
  if name ∈ already_triggered then (false, already_triggered)
  else (true, insert name already_triggered)

/-- A sequence of `_register_trigger` calls, linearized by the module
lock, starting from a given registry: the list of returned booleans in
call order and the final registry. -/
def registerAll : List String → Finset String → List Bool × Finset String
  | [], already_triggered => ([], already_triggered)
  | name :: rest, already_triggered =>
    let (to_trigger, after) := _register_trigger name already_triggered
    let (results, final) := registerAll rest after
    (to_trigger :: results, final)

/-- The generated Tekton `PipelineRun` body, with the nested dictionary
flattened: `metadata.name` and `spec.pipelineRef.name` become flat
fields, `spec.params` a name/value list. -/
structure PipelineRunResource where
  apiVersion : String
  kind : String
  metadata_name : String
  pipelineRef_name : String
  params : List (String × String)
deriving DecidableEq, Repr

/-- `_construct_tekton_trigger_resource`: builds the `PipelineRun` body
and returns it together with `long_name`, the pre-truncation,
pre-timestamp name.  The minute-resolution timestamp produced by
`datetime.utcnow().strftime` is an explicit parameter `ts`. -/
def _construct_tekton_trigger_resource (saas_file_name env_name : String)
    (tkn_cluster_console_url tkn_namespace_name : String)
    (settings : Settings) (ts : String) : PipelineRunResource × String :=
  let long_name := PyStr.lower (saas_file_name ++ "-" ++ env_name)
  let name := PyStr.take long_name UNIQUE_SAAS_FILE_ENV_COMBO_LEN ++ "-" ++ ts
  ({ apiVersion := "tekton.dev/v1beta1"
     kind := "PipelineRun"
     metadata_name := name
     pipelineRef_name := settings.saasDeployJobTemplate
     params := [("saas_file_name", saas_file_name),
                ("env_name", env_name),
                ("tkn_cluster_console_url", tkn_cluster_console_url),
                ("tkn_namespace_name", tkn_namespace_name)] },
   long_name)

/-- The behavior of the two downstream adapters, as an explicit input:
whether `jenkins.trigger_job(job_name)` raises, and whether
`osb.create` raises for a given resource name. -/
structure Adapters where
  jenkinsFails : String → Bool
  tektonFails : String → Bool

/-- The observable outcome of one `trigger` call: the returned error
flag, the registry after the call, the `saasherder.update_state`
invocations, the `jenkins.trigger_job` invocations and the resources
passed to `osb.create`. -/
structure TriggerOutcome where
  error : Bool
  already_triggered : Finset String
  updates : List (String × TriggerSpec)
  jenkins_jobs : List String
  tekton_resources : List PipelineRunResource

/-- `_trigger_jenkins`: registers the deterministic job name; when the
registration succeeded and this is not a dry run, calls
`jenkins.trigger_job` and converts an exception into `error = True`;
afterwards, when no error occurred and this is not a dry run, calls
`saasherder.update_state(trigger_type, spec)`. -/
def _trigger_jenkins (spec : TriggerSpec) (dry_run : Bool) (adapters : Adapters)
    (already_triggered : Finset String) (settings : Settings)
    (trigger_type : String) : TriggerOutcome :=
  let job_name :=
    get_openshift_saas_deploy_job_name spec.saas_file_name spec.env_name settings
  let (to_trigger, after) := _register_trigger job_name already_triggered
  let jobs := if to_trigger ∧ ¬dry_run then [job_name] else []
  let error := if to_trigger ∧ ¬dry_run then adapters.jenkinsFails job_name else false
  let updates := if ¬error ∧ ¬dry_run then [(trigger_type, spec)] else []
  { error := error
    already_triggered := after
    updates := updates
    jenkins_jobs := jobs
    tekton_resources := [] }

/-- `_trigger_tekton`: constructs the `PipelineRun` resource, registers
`long_name` (the second component of the construction, not the
timestamped resource name); when the registration succeeded, calls
`osb.create` (which receives the dry-run flag itself) and converts an
exception into `error = True`; afterwards, when no error occurred and
this is not a dry run, calls `saasherder.update_state`. -/
def _trigger_tekton (spec : TriggerSpec) (dry_run : Bool) (adapters : Adapters)
    (already_triggered : Finset String) (settings : Settings)
    (trigger_type : String) (ts : String) : TriggerOutcome :=
  let pp := spec.pipelines_provider
  let (tkn_trigger_resource, tkn_name) :=
    _construct_tekton_trigger_resource spec.saas_file_name spec.env_name
      pp.cluster_console_url pp.namespace_name settings ts
  let (to_trigger, after) := _register_trigger tkn_name already_triggered
  let created := if to_trigger then [tkn_trigger_resource] else []
  let error :=
    if to_trigger then adapters.tektonFails tkn_trigger_resource.metadata_name
    else false
  let updates := if ¬error ∧ ¬dry_run then [(trigger_type, spec)] else []
  { error := error
    already_triggered := after
    updates := updates
    jenkins_jobs := []
    tekton_resources := created }

/-- `trigger(spec, ...)`: dispatch on the provider discriminator; an
unsupported provider is logged and returns `error = True` without
touching the registry or dispatching anything. -/
def trigger (spec : TriggerSpec) (dry_run : Bool) (adapters : Adapters)
    (already_triggered : Finset String) (settings : Settings)
    (trigger_type : String) (ts : String) : TriggerOutcome :=
  let provider_name := spec.pipelines_provider.provider
  if provider_name = ProvidersJENKINS then
    _trigger_jenkins spec dry_run adapters already_triggered settings trigger_type
  else if provider_name = ProvidersTEKTON then
    _trigger_tekton spec dry_run adapters already_triggered settings trigger_type ts
  else
    { error := true
      already_triggered := already_triggered
      updates := []
      jenkins_jobs := []
      tekton_resources := [] }

/-- The worker-pool mapping of `trigger` over the trigger specs,
linearized: the per-spec error list in spec order, the final shared
registry, and the concatenated dispatch records. -/
def runTriggers (dry_run : Bool) (adapters : Adapters) (settings : Settings)
    (trigger_type : String) (ts : String) :
    List TriggerSpec → Finset String →
    List Bool × Finset String × List (String × TriggerSpec) × List String ×
      List PipelineRunResource
  | [], already_triggered => ([], already_triggered, [], [], [])
  | spec :: rest, already_triggered =>
    let o := trigger spec dry_run adapters already_triggered settings trigger_type ts
    let (errors, final, updates, jobs, resources) :=
      runTriggers dry_run adapters settings trigger_type ts rest o.already_triggered
    (o.error :: errors, final, o.updates ++ updates, o.jenkins_jobs ++ jobs,
     o.tekton_resources ++ resources)

/-- `run(...)` of the trigger integration: when `setup` failed (the
configuration query returned no deployment targets) it returns the
error immediately; otherwise it maps `trigger` over the specs with a
shared empty registry, appends the diff-computation error and returns
`any(errors)`.  The result carries the dispatch records so that the
absence of any dispatch in the early-return case is observable. -/
def run (saas_files_empty : Bool) (trigger_specs : List TriggerSpec)
    (diff_err : Bool) (dry_run : Bool) (adapters : Adapters)
    (settings : Settings) (trigger_type : String) (ts : String) :
    Bool × List String × List PipelineRunResource :=
  if saas_files_empty then (true, [], [])
  else
    let (errors, _, _, jobs, resources) :=
      runTriggers dry_run adapters settings trigger_type ts trigger_specs ∅
    ((errors ++ [diff_err]).any id, jobs, resources)

/-- A concrete jenkins-provider trigger spec for concrete instances. -/
def exampleJenkinsSpec : TriggerSpec :=
  { saas_file_name := "app"
    env_name := "prod"
    pipelines_provider :=
      { provider := "jenkins"
        instance_name := "ci"
        namespace_name := ""
        cluster_name := ""
        cluster_console_url := "" } }

/-- A concrete tekton-provider trigger spec for concrete instances. -/
def exampleTektonSpec : TriggerSpec :=
  { saas_file_name := "SaaS-App"
    env_name := "Prod"
    pipelines_provider :=
      { provider := "tekton"
        instance_name := ""
        namespace_name := "tkn-ns"
        cluster_name := "cl"
        cluster_console_url := "https://console" } }

/-- A trigger spec with an unsupported pipelines provider. -/
def exampleBadSpec : TriggerSpec :=
  { exampleJenkinsSpec with pipelines_provider.provider := "gitlab-ci" }

/-- Adapters that never raise. -/
def neverFail : Adapters := ⟨fun _ => false, fun _ => false⟩

/-- Adapters that always raise. -/
def alwaysFail : Adapters := ⟨fun _ => true, fun _ => true⟩

/-- Concrete settings for concrete instances. -/
def exampleSettings : Settings := ⟨"saas-deploy-template"⟩

end TriggerBase

namespace OcmGroups

/-- One group-membership record `{cluster, group, user}`. -/
structure Membership where
  cluster : String
  group : String
  user : String
deriving DecidableEq, Repr

/-- The diff actions produced by `openshift_groups.calculate_diff`. -/
inductive GroupAction
  | create_group
  | delete_group
  | add_user_to_group
  | del_user_from_group
deriving DecidableEq, Repr

/-- One computed diff `{cluster, group, user, action}`; `user` is
absent for the group-lifecycle actions. -/
structure GroupDiff where
  cluster : String
  group : String
  user : Option String
  action : GroupAction
deriving DecidableEq, Repr

/-- Modelled from the spec: `openshift_groups.calculate_diff` is not
under src/.  Per the spec it computes membership add/remove actions and
group create/delete actions between current and desired state; every
emitted diff references a cluster/group pair occurring in one of its
inputs. -/
def calculate_diff (current_state desired_state : List Membership) :
    List GroupDiff :=
  let current_groups := (current_state.map (fun s => (s.cluster, s.group))).dedup
  let desired_groups := (desired_state.map (fun s => (s.cluster, s.group))).dedup
  (desired_groups.filter (fun g => decide (g ∉ current_groups))).map
      (fun g => ⟨g.1, g.2, none, GroupAction.create_group⟩) ++
    (desired_state.filter (fun s => decide (s ∉ current_state))).map
      (fun s => ⟨s.cluster, s.group, some s.user, GroupAction.add_user_to_group⟩) ++
    (current_state.filter (fun s => decide (s ∉ desired_state))).map
      (fun s => ⟨s.cluster, s.group, some s.user, GroupAction.del_user_from_group⟩) ++
    (current_groups.filter (fun g => decide (g ∉ desired_groups))).map
      (fun g => ⟨g.1, g.2, none, GroupAction.delete_group⟩)

/-- The diff loop of `run`: `create_group` and `delete_group` actions
are skipped with `continue`, and `act` is invoked for the remaining
diffs only when this is not a dry run.  Returns the diffs passed to
`act`, in order. -/
def actedDiffs (dry_run : Bool) (diffs : List GroupDiff) : List GroupDiff :=
  diffs.filterMap (fun diff =>
    if diff.action = GroupAction.create_group ∨
       diff.action = GroupAction.delete_group then none
    else if dry_run then none
    else some diff)

/-- `run(dry_run, ...)` of the ocm-groups integration, abstracted over
the fetched states: both states are restricted to the fixed group
`dedicated-admins`, the diff is computed, and the loop acts on the
filtered diffs.  Returns the diffs passed to `act`. -/
def run (dry_run : Bool) (current_state desired_state : List Membership) :
    List GroupDiff :=
  let current_state := current_state.filter (fun s => s.group = "dedicated-admins")
  let desired_state := desired_state.filter (fun s => s.group = "dedicated-admins")
  let diffs := calculate_diff current_state desired_state
  actedDiffs dry_run diffs

end OcmGroups

/-! ## Helper lemmas -/

theorem register_trigger_snd (name : String) (reg : Finset String) :
    (TriggerBase._register_trigger name reg).2 = insert name reg := by
  unfold TriggerBase._register_trigger
  by_cases h : name ∈ reg
  · simp only [h, if_true]
    exact (Finset.insert_eq_self.mpr h).symm
  · simp [h]

theorem registerAll_snd (names : List String) :
    ∀ reg, (TriggerBase.registerAll names reg).2 = reg ∪ names.toFinset := by
  induction names with
  | nil => intro reg; simp [TriggerBase.registerAll]
  | cons n rest ih =>
    intro reg
    simp only [TriggerBase.registerAll, register_trigger_snd, ih, List.toFinset_cons]
    rw [Finset.insert_union, Finset.union_insert]

theorem registerAll_get (names : List String) :
    ∀ (reg : Finset String) (i : Nat),
      ((TriggerBase.registerAll names reg).1)[i]? =
        (names[i]?).map (fun n => decide (n ∉ reg ∪ (names.take i).toFinset)) := by
  induction names with
  | nil => intro reg i; simp [TriggerBase.registerAll]
  | cons n rest ih =>
    intro reg i
    cases i with
    | zero =>
      simp only [TriggerBase.registerAll, TriggerBase._register_trigger,
        List.take_zero, List.toFinset_nil, Finset.union_empty, List.getElem?_cons_zero,
        Option.map_some]
      by_cases h : n ∈ reg <;> simp [h]
    | succ j =>
      simp only [TriggerBase.registerAll, register_trigger_snd,
        List.getElem?_cons_succ, List.take_succ_cons, List.toFinset_cons]
      rw [ih]
      have : reg ∪ insert n (rest.take j).toFinset =
          insert n reg ∪ (rest.take j).toFinset := by
        rw [Finset.insert_union, Finset.union_insert]
      rw [this]

theorem processLine_applyCommand (st : SaasFileOwners.ApprovalState)
    (line : String) :
    SaasFileOwners.processLine (st.approved, st.hold, st.lgtmSeen) line =
      ((SaasFileOwners.applyCommand st line).approved,
       (SaasFileOwners.applyCommand st line).hold,
       (SaasFileOwners.applyCommand st line).lgtmSeen) := by
  by_cases h1 : line = "/lgtm"
  · subst h1
    simp [SaasFileOwners.processLine, SaasFileOwners.applyCommand]
  · by_cases h2 : line = "/lgtm cancel"
    · subst h2
      simp [SaasFileOwners.processLine, SaasFileOwners.applyCommand]
    · by_cases h3 : line = "/hold"
      · subst h3
        simp [SaasFileOwners.processLine, SaasFileOwners.applyCommand]
      · by_cases h4 : line = "/hold cancel"
        · subst h4
          simp [SaasFileOwners.processLine, SaasFileOwners.applyCommand]
        · simp [SaasFileOwners.processLine, SaasFileOwners.applyCommand,
            h1, h2, h3, h4]

theorem foldLines_applyCommand (lines : List String)
    (st : SaasFileOwners.ApprovalState) :
    lines.foldl SaasFileOwners.processLine (st.approved, st.hold, st.lgtmSeen) =
      ((lines.foldl SaasFileOwners.applyCommand st).approved,
       (lines.foldl SaasFileOwners.applyCommand st).hold,
       (lines.foldl SaasFileOwners.applyCommand st).lgtmSeen) := by
  induction lines generalizing st with
  | nil => rfl
  | cons l rest ih =>
    rw [List.foldl_cons, List.foldl_cons, processLine_applyCommand, ih]

theorem foldComments_applyCommand (comments : List SaasFileOwners.Comment)
    (normalized : List String) (st : SaasFileOwners.ApprovalState) :
    comments.foldl
        (fun st comment =>
          if comment.username ∈ normalized then
            (PyStr.split '\n' comment.body).foldl SaasFileOwners.processLine st
          else st)
        (st.approved, st.hold, st.lgtmSeen) =
      (let final := comments.foldl
          (fun st comment =>
            if comment.username ∈ normalized then
              (PyStr.split '\n' comment.body).foldl SaasFileOwners.applyCommand st
            else st) st
       (final.approved, final.hold, final.lgtmSeen)) := by
  induction comments generalizing st with
  | nil => rfl
  | cons c rest ih =>
    rw [List.foldl_cons, List.foldl_cons]
    by_cases h : c.username ∈ normalized
    · simp only [h, if_true]
      rw [foldLines_applyCommand, ih]
    · simp only [h, if_false]
      rw [ih]

/-! ## Claim theorems -/

/-- C1: `registerTrigger` is a check-and-set over the pass-scoped
registry: a call returns true iff its identity was absent before, the
identity is a member afterwards, the registry only grows, and over any
call sequence from the empty registry the final content is the set of
distinct identities passed in, with each call returning true exactly
when its identity did not occur earlier in the sequence. -/
theorem C1_registerTrigger_check_and_set :
    (∀ (name : String) (reg : Finset String),
        ((TriggerBase._register_trigger name reg).1 = true ↔ name ∉ reg)) ∧
    (∀ (name : String) (reg : Finset String),
        name ∈ (TriggerBase._register_trigger name reg).2) ∧
    (∀ (name : String) (reg : Finset String),
        reg ⊆ (TriggerBase._register_trigger name reg).2) ∧
    (∀ names : List String,
        (TriggerBase.registerAll names ∅).2 = names.toFinset) ∧
    (∀ (names : List String) (i : Nat),
        ((TriggerBase.registerAll names ∅).1)[i]? =
          (names[i]?).map (fun n => decide (n ∉ (names.take i).toFinset))) := by
  refine ⟨?_, ?_, ?_, ?_, ?_⟩
  · intro name reg
    unfold TriggerBase._register_trigger
    by_cases h : name ∈ reg <;> simp [h]
  · intro name reg
    rw [register_trigger_snd]
    exact Finset.mem_insert_self name reg
  · intro name reg
    rw [register_trigger_snd]
    exact Finset.subset_insert name reg
  · intro names
    rw [registerAll_snd]
    exact Finset.empty_union _
  · intro names i
    rw [registerAll_get]
    simp

/-- C6: `computeDiffs` returns exactly the elements of the desired
state with no structurally equal counterpart in the current state,
preserving their order, and `computeDiffs S S = []`. -/
theorem C6_computeDiffs_exact :
    (∀ current desired : List SaasFileOwners.Entry,
        (SaasFileOwners.computeDiffs current desired).Sublist desired) ∧
    (∀ (current desired : List SaasFileOwners.Entry) (x : SaasFileOwners.Entry),
        x ∈ SaasFileOwners.computeDiffs current desired ↔
          x ∈ desired ∧ x ∉ current) ∧
    (∀ S : List SaasFileOwners.Entry, SaasFileOwners.computeDiffs S S = []) := by
  refine ⟨?_, ?_, ?_⟩
  · intro current desired
    exact List.filter_sublist desired
  · intro current desired x
    simp [SaasFileOwners.computeDiffs]
  · intro S
    simp [SaasFileOwners.computeDiffs]

/-- C3: `valid_diff` returns true iff stripping `ref`, `parameters`,
`disable` and `use_channel_in_image_tag` from every entry of both
collections yields exactly equal collections; an added or removed
target makes it false; a change confined to the enablement flag (or to
`ref`, `parameters`, `use_channel_in_image_tag`) keeps it true; a
change to any structural field makes it false. -/
theorem C3_valid_diff_strip_iff :
    (∀ c d : List SaasFileOwners.Entry,
        (SaasFileOwners.valid_diff c d = true ↔
          c.map SaasFileOwners.stripEntry = d.map SaasFileOwners.stripEntry)) ∧
    (∀ c d : List SaasFileOwners.Entry,
        c.length ≠ d.length → SaasFileOwners.valid_diff c d = false) ∧
    (∀ (e : SaasFileOwners.Entry) (r : String) (p : List (String × String))
        (dis : Option Bool) (uc : Bool),
        SaasFileOwners.valid_diff [e]
          [{ e with
              ref := r
              parameters := p
              disable := dis
              saas_file_definitions :=
                { e.saas_file_definitions with use_channel_in_image_tag := uc } }] =
          true) ∧
    (∀ (e : SaasFileOwners.Entry) (s : String), s ≠ e.cluster →
        SaasFileOwners.valid_diff [e] [{ e with cluster := s }] = false) ∧
    (∀ (e : SaasFileOwners.Entry) (s : String), s ≠ e.«namespace» →
        SaasFileOwners.valid_diff [e] [{ e with «namespace» := s }] = false) ∧
    (∀ (e : SaasFileOwners.Entry) (s : String), s ≠ e.environment →
        SaasFileOwners.valid_diff [e] [{ e with environment := s }] = false) ∧
    (∀ (e : SaasFileOwners.Entry) (s : String), s ≠ e.resource_template_name →
        SaasFileOwners.valid_diff [e] [{ e with resource_template_name := s }] = false) ∧
    (∀ (e : SaasFileOwners.Entry) (l : List String),
        l ≠ e.saas_file_definitions.managed_resource_types →
        SaasFileOwners.valid_diff [e]
          [{ e with saas_file_definitions :=
              { e.saas_file_definitions with managed_resource_types := l } }] = false) ∧
    (∀ (e : SaasFileOwners.Entry) (l : List String),
        l ≠ e.saas_file_definitions.image_patterns →
        SaasFileOwners.valid_diff [e]
          [{ e with saas_file_definitions :=
              { e.saas_file_definitions with image_patterns := l } }] = false) := by
  refine ⟨?_, ?_, ?_, ?_, ?_, ?_, ?_, ?_, ?_⟩
  · intro c d
    simp [SaasFileOwners.valid_diff]
  · intro c d hne
    simp only [SaasFileOwners.valid_diff, decide_eq_false_iff_not]
    intro heq
    exact hne (by simpa using congrArg List.length heq)
  · intro e r p dis uc
    simp [SaasFileOwners.valid_diff, SaasFileOwners.stripEntry]
  · intro e s hne
    simp only [SaasFileOwners.valid_diff, decide_eq_false_iff_not]
    intro heq
    apply hne
    have h2 : SaasFileOwners.stripEntry e =
        SaasFileOwners.stripEntry { e with cluster := s } := by simpa using heq
    have h3 := congrArg SaasFileOwners.StrippedEntry.cluster h2
    simpa [SaasFileOwners.stripEntry] using h3.symm
  · intro e s hne
    simp only [SaasFileOwners.valid_diff, decide_eq_false_iff_not]
    intro heq
    apply hne
    have h2 : SaasFileOwners.stripEntry e =
        SaasFileOwners.stripEntry { e with «namespace» := s } := by simpa using heq
    have h3 := congrArg SaasFileOwners.StrippedEntry.«namespace» h2
    simpa [SaasFileOwners.stripEntry] using h3.symm
  · intro e s hne
    simp only [SaasFileOwners.valid_diff, decide_eq_false_iff_not]
    intro heq
    apply hne
    have h2 : SaasFileOwners.stripEntry e =
        SaasFileOwners.stripEntry { e with environment := s } := by simpa using heq
    have h3 := congrArg SaasFileOwners.StrippedEntry.environment h2
    simpa [SaasFileOwners.stripEntry] using h3.symm
  · intro e s hne
    simp only [SaasFileOwners.valid_diff, decide_eq_false_iff_not]
    intro heq
    apply hne
    have h2 : SaasFileOwners.stripEntry e =
        SaasFileOwners.stripEntry { e with resource_template_name := s } := by
      simpa using heq
    have h3 := congrArg SaasFileOwners.StrippedEntry.resource_template_name h2
    simpa [SaasFileOwners.stripEntry] using h3.symm
  · intro e l hne
    simp only [SaasFileOwners.valid_diff, decide_eq_false_iff_not]
    intro heq
    apply hne
    have h2 : SaasFileOwners.stripEntry e =
        SaasFileOwners.stripEntry
          { e with saas_file_definitions :=
              { e.saas_file_definitions with managed_resource_types := l } } := by
      simpa using heq
    have h3 := congrArg
      (fun x => x.saas_file_definitions.managed_resource_types) h2
    simpa [SaasFileOwners.stripEntry] using h3.symm
  · intro e l hne
    simp only [SaasFileOwners.valid_diff, decide_eq_false_iff_not]
    intro heq
    apply hne
    have h2 : SaasFileOwners.stripEntry e =
        SaasFileOwners.stripEntry
          { e with saas_file_definitions :=
              { e.saas_file_definitions with image_patterns := l } } := by
      simpa using heq
    have h3 := congrArg (fun x => x.saas_file_definitions.image_patterns) h2
    simpa [SaasFileOwners.stripEntry] using h3.symm

/-- Witness for C3 at concrete inputs. -/
theorem C3_valid_diff_strip_iff_witness :
    SaasFileOwners.valid_diff [SaasFileOwners.exampleCurrent]
        [{ SaasFileOwners.exampleCurrent with cluster := "cl2" }] = false :=
  C3_valid_diff_strip_iff.2.2.2.1 SaasFileOwners.exampleCurrent "cl2" (by decide)

/-- C8: `collect_compare_diffs` returns exactly the comparison URLs
`{url}/compare/{currentRef}...{desiredRef}` for desired entries whose
defining file path matches a changed path and current entries agreeing
on the five identity fields with a different ref; and the concrete
instance of the spec produces exactly
`https://git/example/compare/abc...def`. -/
theorem C8_collect_compare_diffs_exact :
    (∀ (current desired : List SaasFileOwners.Entry)
        (changed_paths : List String) (s : String),
        s ∈ SaasFileOwners.collect_compare_diffs current desired changed_paths ↔
          ∃ d ∈ desired,
            (∃ p ∈ changed_paths, PyStr.endsWith p d.saas_file_path = true) ∧
            ∃ c ∈ current,
              d.saas_file_name = c.saas_file_name ∧
              d.resource_template_name = c.resource_template_name ∧
              d.environment = c.environment ∧
              d.cluster = c.cluster ∧
              d.«namespace» = c.«namespace» ∧
              d.ref ≠ c.ref ∧
              s = d.url ++ "/compare/" ++ c.ref ++ "..." ++ d.ref) ∧
    SaasFileOwners.collect_compare_diffs [SaasFileOwners.exampleCurrent]
        [SaasFileOwners.exampleDesired]
        ["/repo/data/services/example/saas.yaml"] =
      {"https://git/example/compare/abc...def"} := by
  constructor
  · intro current desired changed_paths s
    simp only [SaasFileOwners.collect_compare_diffs, List.mem_toFinset,
      List.mem_flatMap]
    constructor
    · rintro ⟨d, hd, hs⟩
      by_cases h :
          (changed_paths.filter
            (fun c => PyStr.endsWith c d.saas_file_path)).isEmpty = true
      · rw [if_pos h] at hs
        simp at hs
      · rw [if_neg h] at hs
        rw [List.mem_filterMap] at hs
        obtain ⟨c, hc, hsome⟩ := hs
        refine ⟨d, hd, ?_, c, hc, ?_⟩
        · have hne :
              changed_paths.filter (fun c => PyStr.endsWith c d.saas_file_path) ≠
                [] := by
            simpa [List.isEmpty_iff] using h
          obtain ⟨p, hp⟩ := List.exists_mem_of_ne_nil _ hne
          exact ⟨p, (List.mem_filter.mp hp).1, (List.mem_filter.mp hp).2⟩
        · by_cases hcond :
              d.saas_file_name = c.saas_file_name ∧
              d.resource_template_name = c.resource_template_name ∧
              d.environment = c.environment ∧
              d.cluster = c.cluster ∧
              d.«namespace» = c.«namespace» ∧
              d.ref ≠ c.ref
          · rw [if_pos hcond] at hsome
            obtain ⟨h1, h2, h3, h4, h5, h6⟩ := hcond
            exact ⟨h1, h2, h3, h4, h5, h6, (Option.some_inj.mp hsome).symm⟩
          · rw [if_neg hcond] at hsome
            cases hsome
    · rintro ⟨d, hd, ⟨p, hp, hep⟩, c, hc, h1, h2, h3, h4, h5, h6, hs⟩
      refine ⟨d, hd, ?_⟩
      have hne :
          changed_paths.filter (fun c => PyStr.endsWith c d.saas_file_path) ≠
            [] := by
        intro h0
        have hmem : p ∈ changed_paths.filter
            (fun c => PyStr.endsWith c d.saas_file_path) :=
          List.mem_filter.mpr ⟨hp, by simpa using hep⟩
        rw [h0] at hmem
        cases hmem
      rw [if_neg (by simpa [List.isEmpty_iff] using hne)]
      rw [List.mem_filterMap]
      refine ⟨c, hc, ?_⟩
      rw [if_pos ⟨h1, h2, h3, h4, h5, h6⟩, hs]
  · decide

/-- C4 counterexample: the claim normalizes approver identifiers by
stripping only a leading `@`, but `check_if_lgtm` uses
`u.replace('@', '')`, which removes every `@`.  On the owner list
`["ali@ce"]` with a single `/lgtm` comment by `alice`, the code
approves while the claimed state machine does not. -/
theorem C4_check_if_lgtm_counterexample :
    SaasFileOwners.check_if_lgtm ["ali@ce"]
        [⟨"alice", "/lgtm", 0⟩] = (true, false) ∧
    SaasFileOwners.evaluateApprovalClaimed ["ali@ce"]
        [⟨"alice", "/lgtm", 0⟩] = (false, false) ∧
    SaasFileOwners.check_if_lgtm ["ali@ce"] [⟨"alice", "/lgtm", 0⟩] ≠
      SaasFileOwners.evaluateApprovalClaimed ["ali@ce"]
        [⟨"alice", "/lgtm", 0⟩] := by
  decide

/-- C4 amended: `check_if_lgtm` implements the claimed state machine
with the normalization amended to removing every `@` character from
approver identifiers (not only a leading one); in particular the listed
concrete behaviors hold. -/
theorem C4_check_if_lgtm_state_machine :
    (∀ (owners : List String) (comments : List SaasFileOwners.Comment),
        SaasFileOwners.check_if_lgtm owners comments =
          SaasFileOwners.evaluateApprovalAmended owners comments) ∧
    SaasFileOwners.check_if_lgtm ["alice"]
        [⟨"alice", "/lgtm", 0⟩, ⟨"alice", "/hold", 1⟩,
         ⟨"alice", "/hold cancel", 2⟩] = (true, false) ∧
    (∀ comments : List SaasFileOwners.Comment,
        SaasFileOwners.check_if_lgtm [] comments = (false, false)) ∧
    SaasFileOwners.check_if_lgtm ["alice"] [⟨"bob", "/lgtm", 0⟩] =
      (false, false) := by
  refine ⟨?_, by decide, ?_, by decide⟩
  · intro owners comments
    unfold SaasFileOwners.check_if_lgtm SaasFileOwners.evaluateApprovalAmended
    by_cases h : owners = []
    · simp [h]
    · simp only [h, if_false]
      have hfold := foldComments_applyCommand
        (SaasFileOwners.sortedByCreated comments)
        (owners.map (fun u => PyStr.removeChar '@' u))
        ⟨false, false, false⟩
      simp only at hfold ⊢
      rw [hfold]
  · intro comments
    simp [SaasFileOwners.check_if_lgtm]

/-- C10: `valid_diff` leaves both of its inputs unchanged and returns
the comparison of the field-stripped deep copies: the caller observes
the original `current_state` and `desired_state` after the call. -/
theorem C10_valid_diff_frame :
    ∀ current_state desired_state : List SaasFileOwners.Entry,
      SaasFileOwners.valid_diffExec current_state desired_state =
        (SaasFileOwners.valid_diff current_state desired_state,
         current_state, desired_state) :=
  fun _ _ => rfl

/-- C2 counterexample: in a non-dry-run pass, a spec whose trigger
identity is already registered dispatches nothing, yet
`saasherder.update_state(trigger_type, spec)` is still called, because
the state update in the code is guarded only by `not error and not
dry_run`, not by the dispatch having happened. -/
theorem C2_update_state_counterexample :
    (TriggerBase._trigger_jenkins TriggerBase.exampleJenkinsSpec false
        TriggerBase.neverFail
        {TriggerBase.get_openshift_saas_deploy_job_name "app" "prod"
          TriggerBase.exampleSettings}
        TriggerBase.exampleSettings "config").jenkins_jobs = [] ∧
    (TriggerBase._trigger_jenkins TriggerBase.exampleJenkinsSpec false
        TriggerBase.neverFail
        {TriggerBase.get_openshift_saas_deploy_job_name "app" "prod"
          TriggerBase.exampleSettings}
        TriggerBase.exampleSettings "config").updates =
      [("config", TriggerBase.exampleJenkinsSpec)] := by
  decide

/-- C2 amended: for both providers, `update_state` is called exactly
once for a spec iff the pass is not dry-run and no error occurred for
that spec — including when the trigger was deduplicated and nothing was
dispatched; an error can only arise from a dispatched adapter call that
failed, so `update_state` is never called after an adapter error or in
a dry run. -/
theorem C2_update_state_once_iff :
    ∀ (spec : TriggerBase.TriggerSpec) (dry_run : Bool)
      (adapters : TriggerBase.Adapters) (reg : Finset String)
      (settings : TriggerBase.Settings) (trigger_type ts : String),
      ((TriggerBase._trigger_jenkins spec dry_run adapters reg settings
          trigger_type).updates =
        if dry_run = false ∧
            (TriggerBase._trigger_jenkins spec dry_run adapters reg settings
              trigger_type).error = false then
          [(trigger_type, spec)]
        else []) ∧
      ((TriggerBase._trigger_tekton spec dry_run adapters reg settings
          trigger_type ts).updates =
        if dry_run = false ∧
            (TriggerBase._trigger_tekton spec dry_run adapters reg settings
              trigger_type ts).error = false then
          [(trigger_type, spec)]
        else []) ∧
      ((TriggerBase._trigger_jenkins spec dry_run adapters reg settings
          trigger_type).error = true ↔
        (TriggerBase.get_openshift_saas_deploy_job_name spec.saas_file_name
            spec.env_name settings ∉ reg ∧ dry_run = false ∧
          adapters.jenkinsFails
            (TriggerBase.get_openshift_saas_deploy_job_name spec.saas_file_name
              spec.env_name settings) = true)) ∧
      ((TriggerBase._trigger_tekton spec dry_run adapters reg settings
          trigger_type ts).error = true ↔
        ((TriggerBase._construct_tekton_trigger_resource spec.saas_file_name
            spec.env_name spec.pipelines_provider.cluster_console_url
            spec.pipelines_provider.namespace_name settings ts).2 ∉ reg ∧
          adapters.tektonFails
            (TriggerBase._construct_tekton_trigger_resource spec.saas_file_name
              spec.env_name spec.pipelines_provider.cluster_console_url
              spec.pipelines_provider.namespace_name settings ts).1.metadata_name =
            true)) ∧
      (TriggerBase.get_openshift_saas_deploy_job_name spec.saas_file_name
          spec.env_name settings ∈ reg →
        (TriggerBase._trigger_jenkins spec dry_run adapters reg settings
            trigger_type).jenkins_jobs = [] ∧
        (dry_run = false →
          (TriggerBase._trigger_jenkins spec dry_run adapters reg settings
              trigger_type).updates = [(trigger_type, spec)])) ∧
      ((TriggerBase._construct_tekton_trigger_resource spec.saas_file_name
          spec.env_name spec.pipelines_provider.cluster_console_url
          spec.pipelines_provider.namespace_name settings ts).2 ∈ reg →
        (TriggerBase._trigger_tekton spec dry_run adapters reg settings
            trigger_type ts).tekton_resources = [] ∧
        (dry_run = false →
          (TriggerBase._trigger_tekton spec dry_run adapters reg settings
              trigger_type ts).updates = [(trigger_type, spec)])) := by
  intro spec dry_run adapters reg settings trigger_type ts
  refine ⟨?_, ?_, ?_, ?_, ?_, ?_⟩
  · by_cases hm : TriggerBase.get_openshift_saas_deploy_job_name
        spec.saas_file_name spec.env_name settings ∈ reg <;>
      cases dry_run <;>
      simp [TriggerBase._trigger_jenkins, TriggerBase._register_trigger, hm]
  · by_cases hm : (TriggerBase._construct_tekton_trigger_resource
        spec.saas_file_name spec.env_name
        spec.pipelines_provider.cluster_console_url
        spec.pipelines_provider.namespace_name settings ts).2 ∈ reg <;>
      cases dry_run <;>
      simp [TriggerBase._trigger_tekton, TriggerBase._register_trigger, hm]
  · by_cases hm : TriggerBase.get_openshift_saas_deploy_job_name
        spec.saas_file_name spec.env_name settings ∈ reg <;>
      cases dry_run <;>
      simp [TriggerBase._trigger_jenkins, TriggerBase._register_trigger, hm]
  · by_cases hm : (TriggerBase._construct_tekton_trigger_resource
        spec.saas_file_name spec.env_name
        spec.pipelines_provider.cluster_console_url
        spec.pipelines_provider.namespace_name settings ts).2 ∈ reg <;>
      cases dry_run <;>
      simp [TriggerBase._trigger_tekton, TriggerBase._register_trigger, hm]
  · intro hm
    cases dry_run <;>
      simp [TriggerBase._trigger_jenkins, TriggerBase._register_trigger, hm]
  · intro hm
    cases dry_run <;>
      simp [TriggerBase._trigger_tekton, TriggerBase._register_trigger, hm]

/-- Witness for C2 amended at concrete inputs. -/
theorem C2_update_state_once_iff_witness :
    (TriggerBase._trigger_jenkins TriggerBase.exampleJenkinsSpec false
        TriggerBase.neverFail ∅ TriggerBase.exampleSettings "config").updates =
      (if (false = false) ∧
          (TriggerBase._trigger_jenkins TriggerBase.exampleJenkinsSpec false
            TriggerBase.neverFail ∅ TriggerBase.exampleSettings
            "config").error = false then
        [("config", TriggerBase.exampleJenkinsSpec)]
      else []) :=
  (C2_update_state_once_iff TriggerBase.exampleJenkinsSpec false
    TriggerBase.neverFail ∅ TriggerBase.exampleSettings "config" "ts").1

/-- C5: `run` of the trigger integration returns true iff some error
occurred: an empty configuration query aborts with true before any
dispatch; otherwise the result is the OR of the diff-computation error
and the per-trigger errors, of which there is exactly one per spec, and
an unsupported provider yields a per-trigger error without touching the
registry or dispatching anything. -/
theorem C5_run_error_aggregation :
    (∀ (specs : List TriggerBase.TriggerSpec) (diff_err dry_run : Bool)
        (adapters : TriggerBase.Adapters) (settings : TriggerBase.Settings)
        (trigger_type ts : String),
        TriggerBase.run true specs diff_err dry_run adapters settings
          trigger_type ts = (true, [], [])) ∧
    (∀ (specs : List TriggerBase.TriggerSpec) (diff_err dry_run : Bool)
        (adapters : TriggerBase.Adapters) (settings : TriggerBase.Settings)
        (trigger_type ts : String),
        ((TriggerBase.run false specs diff_err dry_run adapters settings
            trigger_type ts).1 = true ↔
          (diff_err = true ∨
            ∃ b ∈ (TriggerBase.runTriggers dry_run adapters settings
              trigger_type ts specs ∅).1, b = true))) ∧
    (∀ (dry_run : Bool) (adapters : TriggerBase.Adapters)
        (settings : TriggerBase.Settings) (trigger_type ts : String)
        (specs : List TriggerBase.TriggerSpec) (reg : Finset String),
        (TriggerBase.runTriggers dry_run adapters settings trigger_type ts
          specs reg).1.length = specs.length) ∧
    (∀ (spec : TriggerBase.TriggerSpec) (dry_run : Bool)
        (adapters : TriggerBase.Adapters) (reg : Finset String)
        (settings : TriggerBase.Settings) (trigger_type ts : String),
        spec.pipelines_provider.provider ≠ TriggerBase.ProvidersJENKINS →
        spec.pipelines_provider.provider ≠ TriggerBase.ProvidersTEKTON →
        (TriggerBase.trigger spec dry_run adapters reg settings trigger_type
            ts).error = true ∧
        (TriggerBase.trigger spec dry_run adapters reg settings trigger_type
            ts).already_triggered = reg ∧
        (TriggerBase.trigger spec dry_run adapters reg settings trigger_type
            ts).jenkins_jobs = [] ∧
        (TriggerBase.trigger spec dry_run adapters reg settings trigger_type
            ts).tekton_resources = []) := by
  refine ⟨?_, ?_, ?_, ?_⟩
  · intro specs diff_err dry_run adapters settings trigger_type ts
    rfl
  · intro specs diff_err dry_run adapters settings trigger_type ts
    simp [TriggerBase.run, List.any_eq_true]
    tauto
  · intro dry_run adapters settings trigger_type ts specs
    induction specs with
    | nil => intro reg; rfl
    | cons s rest ih =>
      intro reg
      simp [TriggerBase.runTriggers, ih]
  · intro spec dry_run adapters reg settings trigger_type ts h1 h2
    simp [TriggerBase.trigger, h1, h2]

/-- Witness for C5 at concrete inputs: an unsupported provider. -/
theorem C5_run_error_aggregation_witness :
    TriggerBase.exampleBadSpec.pipelines_provider.provider ≠
        TriggerBase.ProvidersJENKINS ∧
    TriggerBase.exampleBadSpec.pipelines_provider.provider ≠
        TriggerBase.ProvidersTEKTON ∧
    (TriggerBase.trigger TriggerBase.exampleBadSpec false TriggerBase.neverFail
        ∅ TriggerBase.exampleSettings "config" "ts").error = true :=
  ⟨by decide, by decide,
    (C5_run_error_aggregation.2.2.2 TriggerBase.exampleBadSpec false
      TriggerBase.neverFail ∅ TriggerBase.exampleSettings "config" "ts"
      (by decide) (by decide)).1⟩

/-- C7: the deduplication identity registered by `_trigger_tekton` is
the pre-timestamp, pre-truncation name
`lower(saas_file_name ++ "-" ++ env_name)`; the truncation and the
timestamp appear only in the metadata name of the generated
`PipelineRun`; and two specs with the same deployment unit and
environment within one pass deduplicate to a single dispatched
resource regardless of their timestamps. -/
theorem C7_tekton_dedup_identity :
    (∀ (saas_file_name env_name curl nsn : String)
        (settings : TriggerBase.Settings) (ts : String),
        (TriggerBase._construct_tekton_trigger_resource saas_file_name env_name
            curl nsn settings ts).2 =
          PyStr.lower (saas_file_name ++ "-" ++ env_name) ∧
        (TriggerBase._construct_tekton_trigger_resource saas_file_name env_name
            curl nsn settings ts).1.metadata_name =
          PyStr.take (PyStr.lower (saas_file_name ++ "-" ++ env_name))
              TriggerBase.UNIQUE_SAAS_FILE_ENV_COMBO_LEN ++ "-" ++ ts) ∧
    (∀ (spec : TriggerBase.TriggerSpec) (dry_run : Bool)
        (adapters : TriggerBase.Adapters) (reg : Finset String)
        (settings : TriggerBase.Settings) (trigger_type ts : String),
        (TriggerBase._trigger_tekton spec dry_run adapters reg settings
            trigger_type ts).already_triggered =
          insert (PyStr.lower (spec.saas_file_name ++ "-" ++ spec.env_name))
            reg) ∧
    (∀ (spec1 spec2 : TriggerBase.TriggerSpec) (dry_run : Bool)
        (adapters : TriggerBase.Adapters) (settings : TriggerBase.Settings)
        (trigger_type ts1 ts2 : String),
        spec1.saas_file_name = spec2.saas_file_name →
        spec1.env_name = spec2.env_name →
        (TriggerBase._trigger_tekton spec1 dry_run adapters ∅ settings
            trigger_type ts1).tekton_resources.length = 1 ∧
        (TriggerBase._trigger_tekton spec2 dry_run adapters
            (TriggerBase._trigger_tekton spec1 dry_run adapters ∅ settings
              trigger_type ts1).already_triggered
            settings trigger_type ts2).tekton_resources = []) := by
  refine ⟨?_, ?_, ?_⟩
  · intro saas_file_name env_name curl nsn settings ts
    exact ⟨rfl, rfl⟩
  · intro spec dry_run adapters reg settings trigger_type ts
    simp [TriggerBase._trigger_tekton,
      TriggerBase._construct_tekton_trigger_resource, register_trigger_snd]
  · intro spec1 spec2 dry_run adapters settings trigger_type ts1 ts2 h1 h2
    constructor
    · simp [TriggerBase._trigger_tekton,
        TriggerBase._construct_tekton_trigger_resource,
        TriggerBase._register_trigger]
    · have hreg :
          (TriggerBase._trigger_tekton spec1 dry_run adapters ∅ settings
            trigger_type ts1).already_triggered =
            insert (PyStr.lower (spec1.saas_file_name ++ "-" ++ spec1.env_name))
              ∅ := by
        simp [TriggerBase._trigger_tekton,
          TriggerBase._construct_tekton_trigger_resource, register_trigger_snd]
      rw [hreg]
      simp [TriggerBase._trigger_tekton,
        TriggerBase._construct_tekton_trigger_resource,
        TriggerBase._register_trigger, h1, h2]

/-- Witness for C7 at concrete inputs: same deployment unit and
environment, two different timestamps. -/
theorem C7_tekton_dedup_identity_witness :
    TriggerBase.exampleTektonSpec.saas_file_name =
        TriggerBase.exampleTektonSpec.saas_file_name ∧
    (TriggerBase._trigger_tekton TriggerBase.exampleTektonSpec false
        TriggerBase.neverFail
        (TriggerBase._trigger_tekton TriggerBase.exampleTektonSpec false
          TriggerBase.neverFail ∅ TriggerBase.exampleSettings "config"
          "202610120912").already_triggered
        TriggerBase.exampleSettings "config" "202610120913").tekton_resources =
      [] :=
  ⟨rfl,
    (C7_tekton_dedup_identity.2.2 TriggerBase.exampleTektonSpec
      TriggerBase.exampleTektonSpec false TriggerBase.neverFail
      TriggerBase.exampleSettings "config" "202610120912" "202610120913" rfl
      rfl).2⟩

theorem mem_memberDiffs_group (l : List OcmGroups.Membership)
    (p : OcmGroups.Membership → Bool) (act : OcmGroups.GroupAction)
    (d : OcmGroups.GroupDiff)
    (hd : d ∈ (l.filter p).map
      (fun s => (⟨s.cluster, s.group, some s.user, act⟩ :
        OcmGroups.GroupDiff))) :
    ∃ s ∈ l, d.group = s.group := by
  rw [List.mem_map] at hd
  obtain ⟨s, hs, heq⟩ := hd
  exact ⟨s, (List.mem_filter.mp hs).1, by rw [← heq]⟩

theorem mem_groupDiffs_group (l : List OcmGroups.Membership)
    (p : String × String → Bool) (act : OcmGroups.GroupAction)
    (d : OcmGroups.GroupDiff)
    (hd : d ∈ (((l.map (fun s => (s.cluster, s.group))).dedup.filter p).map
      (fun g => (⟨g.1, g.2, none, act⟩ : OcmGroups.GroupDiff)))) :
    ∃ s ∈ l, d.group = s.group := by
  rw [List.mem_map] at hd
  obtain ⟨g, hg, heq⟩ := hd
  have hg2 := (List.mem_filter.mp hg).1
  rw [List.mem_dedup, List.mem_map] at hg2
  obtain ⟨s, hs, hsg⟩ := hg2
  refine ⟨s, hs, ?_⟩
  rw [← heq]
  show g.2 = s.group
  rw [← hsg]

theorem calculate_diff_group_mem (cur des : List OcmGroups.Membership)
    (d : OcmGroups.GroupDiff) (hd : d ∈ OcmGroups.calculate_diff cur des) :
    (∃ s ∈ cur, d.group = s.group) ∨ (∃ s ∈ des, d.group = s.group) := by
  unfold OcmGroups.calculate_diff at hd
  rcases List.mem_append.mp hd with h | hdel
  · rcases List.mem_append.mp h with h | hdelu
    · rcases List.mem_append.mp h with hcre | haddu
      · exact Or.inr (mem_groupDiffs_group des _ _ d hcre)
      · exact Or.inr (mem_memberDiffs_group des _ _ d haddu)
    · exact Or.inl (mem_memberDiffs_group cur _ _ d hdelu)
  · exact Or.inl (mem_groupDiffs_group cur _ _ d hdel)

/-- C9: the acted diffs of the ocm-groups `run` never include a
`create_group` or `delete_group` action, and never concern a group
other than `dedicated-admins`; a computed diff containing the actions
create/add-user/delete yields only the add-user action acted upon. -/
theorem C9_act_restricted :
    (∀ (dry_run : Bool) (current desired : List OcmGroups.Membership)
        (d : OcmGroups.GroupDiff),
        d ∈ OcmGroups.run dry_run current desired →
        d.action ≠ OcmGroups.GroupAction.create_group ∧
        d.action ≠ OcmGroups.GroupAction.delete_group ∧
        d.group = "dedicated-admins") ∧
    (OcmGroups.actedDiffs false
        [⟨"c1", "dedicated-admins", none, OcmGroups.GroupAction.create_group⟩,
         ⟨"c1", "dedicated-admins", some "u2",
           OcmGroups.GroupAction.add_user_to_group⟩,
         ⟨"c2", "dedicated-admins", none,
           OcmGroups.GroupAction.delete_group⟩] =
      [⟨"c1", "dedicated-admins", some "u2",
        OcmGroups.GroupAction.add_user_to_group⟩]) := by
  constructor
  · intro dry_run current desired d hd
    unfold OcmGroups.run OcmGroups.actedDiffs at hd
    rw [List.mem_filterMap] at hd
    obtain ⟨diff, hdiff, hsome⟩ := hd
    by_cases hact : diff.action = OcmGroups.GroupAction.create_group ∨
        diff.action = OcmGroups.GroupAction.delete_group
    · rw [if_pos hact] at hsome
      cases hsome
    · rw [if_neg hact] at hsome
      by_cases hdry : dry_run = true
      · rw [if_pos hdry] at hsome
        cases hsome
      · rw [if_neg hdry] at hsome
        have hde : diff = d := Option.some_inj.mp hsome
        subst hde
        push_neg at hact
        refine ⟨hact.1, hact.2, ?_⟩
        have := calculate_diff_group_mem _ _ diff hdiff
        rcases this with ⟨s, hs, hg⟩ | ⟨s, hs, hg⟩ <;>
        · rw [List.mem_filter] at hs
          rw [hg]
          exact of_decide_eq_true hs.2
  · decide

/-- Witness for C9 at a concrete membership diff. -/
theorem C9_act_restricted_witness :
    (⟨"c1", "dedicated-admins", some "u2",
        OcmGroups.GroupAction.add_user_to_group⟩ : OcmGroups.GroupDiff) ∈
      OcmGroups.run false [⟨"c1", "dedicated-admins", "u1"⟩]
        [⟨"c1", "dedicated-admins", "u1"⟩, ⟨"c1", "dedicated-admins", "u2"⟩] ∧
    (⟨"c1", "dedicated-admins", some "u2",
        OcmGroups.GroupAction.add_user_to_group⟩ :
          OcmGroups.GroupDiff).group = "dedicated-admins" :=
  ⟨by decide,
    (C9_act_restricted.1 false [⟨"c1", "dedicated-admins", "u1"⟩]
      [⟨"c1", "dedicated-admins", "u1"⟩, ⟨"c1", "dedicated-admins", "u2"⟩]
      ⟨"c1", "dedicated-admins", some "u2",
        OcmGroups.GroupAction.add_user_to_group⟩ (by decide)).2.2⟩
